import Mathlib

/-!
Verification of the task-tracker persistence layer (`task_tracker/classes.py`).

The embedding models Python strings as lists of characters (`PStr`) so that
`str.strip()` becomes an executable function; statuses are the `TaskStatus`
string enum; the three exception families raised by the source (`ValueError`
with a validation message, `ValueError` with the not-found message,
`RuntimeError` from the HTTP helpers, `AttributeError` from calling `.get`
on a non-dict) are the constructors of `TErr`.  Stateful store classes become
pure functions from the persisted state (in-memory map, file document, remote
bin content) to a result paired with the new persisted state.
-/

namespace TaskTracker

/-- Python `str`, modelled as a list of characters. -/
abbrev PStr := List Char

/-- Whitespace characters removed by Python `str.strip()` (ASCII range:
tab, newline, vertical tab, form feed, carriage return, space). -/
def isPyWS (c : Char) : Bool :=
  c = Char.ofNat 9 || c = Char.ofNat 10 || c = Char.ofNat 11 ||
  c = Char.ofNat 12 || c = Char.ofNat 13 || c = Char.ofNat 32

/-- Python `s.strip()`: drop leading and trailing whitespace. -/
def pstrip (s : PStr) : PStr :=
  ((s.dropWhile isPyWS).reverse.dropWhile isPyWS).reverse

/-- The `TaskStatus` string enum (`todo`, `in_progress`, `done`). -/
inductive TaskStatus where
  | todo
  | in_progress
  | done
deriving DecidableEq, Repr

/-- Equality of `Except` values is decidable when it is on both sides. -/
instance {ε α : Type} [DecidableEq ε] [DecidableEq α] :
    DecidableEq (Except ε α) := fun a b =>
  match a, b with
  | .error e, .error f =>
    if h : e = f then .isTrue (by rw [h])
    else .isFalse (fun hh => by cases hh; exact h rfl)
  | .error _, .ok _ => .isFalse (fun hh => by cases hh)
  | .ok _, .error _ => .isFalse (fun hh => by cases hh)
  | .ok x, .ok y =>
    if h : x = y then .isTrue (by rw [h])
    else .isFalse (fun hh => by cases hh; exact h rfl)

/-- The exception kinds raised by the source.  The source raises plain
`ValueError` for both validation failures and missing ids (distinguished by
message), `RuntimeError` for transport problems and `AttributeError` when
`.get` is called on a non-dict JSON value. -/
inductive TErr where
  | validation
  | notFound
  | transport
  | attrError
deriving DecidableEq, Repr

/-- The `Task` domain object: `id`, `title`, `status`, optional `notes`. -/
structure Task where
  id : Int
  title : PStr
  status : TaskStatus
  notes : Option PStr
deriving DecidableEq, Repr

/-- `Task.__init__`: stores the id and status as given and strips the title;
notes default to `None` at the call sites that omit them. -/
def Task.init (id : Int) (title : PStr) (status : TaskStatus)
    (notes : Option PStr) : Task :=
  ⟨id, pstrip title, status, notes⟩

/-- `Task.rename_title`: raises `ValueError` when the stripped new title is
empty or longer than 50 characters, otherwise replaces the title with the
stripped value. -/
def Task.rename_title (t : Task) (new_title : PStr) : Except TErr Task :=
  if pstrip new_title = [] ∨ 50 < (pstrip new_title).length then
    .error .validation
  else
    .ok { t with title := pstrip new_title }

/-- `Task.change_status`: the `isinstance` guard always succeeds in the typed
embedding, so the status is replaced unconditionally. -/
def Task.change_status (t : Task) (new_status : TaskStatus) : Task :=
  { t with status := new_status }

/-- Replace the first element satisfying `p` by `f` of it, leaving the rest
unchanged.  This models mutating, in place, the object found by a linear
scan (the `for ... break` pattern used by the file and remote stores and the
dict-entry mutation of the in-memory store). -/
def updateFirst {α : Type} (p : α → Bool) (f : α → α) : List α → List α
  | [] => []
  | x :: xs => if p x then f x :: xs else x :: updateFirst p f xs

/-- State of the in-memory `TaskStore`: the dict `tasks` (keyed by `id`,
insertion ordered, modelled as a list whose entries carry their key as the
task id) together with the monotonic counter `next_id`. -/
structure MemStore where
  tasks : List Task
  next_id : Int
deriving DecidableEq, Repr

/-- Python `self.tasks[new_id] = task`: replace in place when the key is
already present, otherwise append (dict insertion order). -/
def dictInsert (ts : List Task) (t : Task) : List Task :=
  if ts.any (fun u => u.id = t.id) then
    ts.map (fun u => if u.id = t.id then t else u)
  else
    ts ++ [t]

/-- `TaskStore.get_all`: the dict values in insertion order. -/
def MemStore.get_all (s : MemStore) : List Task := s.tasks

/-- `TaskStore.create_task`: take `next_id`, bump the counter, build the
task and store it under its id. -/
def MemStore.create_task (s : MemStore) (title : PStr) (status : TaskStatus) :
    Task × MemStore :=
  let new_id := s.next_id
  let t := Task.init new_id title status none
  (t, { tasks := dictInsert s.tasks t, next_id := s.next_id + 1 })

/-- `TaskStore.update_task`: raise when the id is absent; otherwise apply
`rename_title` when `title` is truthy (not `None` and not the empty string)
and `change_status` when `status` is truthy, mutating the stored task.  A
validation failure propagates before any mutation happens. -/
def MemStore.update_task (s : MemStore) (id : Int) (title : Option PStr)
    (status : Option TaskStatus) : Except TErr Task × MemStore :=
  match s.tasks.find? (fun t => t.id = id) with
  | none => (.error .notFound, s)
  | some t0 =>
    let step1 : Except TErr Task :=
      match title with
      | some ttl => if ttl = [] then .ok t0 else t0.rename_title ttl
      | none => .ok t0
    match step1 with
    | .error e => (.error e, s)
    | .ok t1 =>
      let t2 := match status with
        | some st => t1.change_status st
        | none => t1
      (.ok t2,
        { s with tasks := updateFirst (fun t => t.id = id) (fun _ => t2) s.tasks })

/-- `TaskStore.delete_task`: raise when the id is absent, otherwise remove
the dict entry. -/
def MemStore.delete_task (s : MemStore) (id : Int) :
    Except TErr Unit × MemStore :=
  if s.tasks.any (fun t => t.id = id) then
    (.ok (), { s with tasks := s.tasks.filter (fun t => t.id ≠ id) })
  else
    (.error .notFound, s)

/-- One serialized task of the persisted file document
(keys `id`, `title`, `status`; the file format stores no notes). -/
structure SerTask where
  id : Int
  title : PStr
  status : TaskStatus
deriving DecidableEq, Repr

/-- The persisted file document: `schema_version` plus the `tasks` array. -/
structure FDoc where
  schema_version : Int
  tasks : List SerTask
deriving DecidableEq, Repr

namespace FileTaskStore

/-- `FileTaskStore.get_all`: parse each record through `Task.__init__`
(which strips the title) and return the list sorted ascending by id
(`sorted` is stable; a stable insertion sort models it exactly). -/
def get_all (doc : FDoc) : List Task :=
  List.insertionSort (fun a b => a.id ≤ b.id)
    (doc.tasks.map (fun r => Task.init r.id r.title r.status none))

/-- `FileTaskStore.dump_all`: serialize `id`, `title` and `status` of each
task, under `schema_version` 1, and atomically replace the file. -/
def dump_all (tasks : List Task) : FDoc :=
  { schema_version := 1,
    tasks := tasks.map (fun t => ⟨t.id, t.title, t.status⟩) }

/-- `FileTaskStore.create_task`: re-read the document, compute
`1` when empty and `max(ids) + 1` otherwise, append, rewrite. -/
def create_task (doc : FDoc) (title : PStr) (status : TaskStatus) :
    Task × FDoc :=
  let tasks := get_all doc
  let new_id : Int :=
    match (tasks.map Task.id).max? with
    | none => 1
    | some m => m + 1
  let t := Task.init new_id title status none
  (t, dump_all (tasks ++ [t]))

/-- `FileTaskStore.update_task`: find the first task with the given id
(raising when absent), apply `rename_title` when `title` is not `None` and
`change_status` when `status` is not `None`, then rewrite the whole
document.  A validation failure propagates before the rewrite, leaving the
file unchanged. -/
def update_task (doc : FDoc) (id : Int) (title : Option PStr)
    (status : Option TaskStatus) : Except TErr Task × FDoc :=
  let tasks := get_all doc
  match tasks.find? (fun t => t.id = id) with
  | none => (.error .notFound, doc)
  | some t0 =>
    let r1 : Except TErr Task :=
      match title with
      | some ttl => t0.rename_title ttl
      | none => .ok t0
    match r1 with
    | .error e => (.error e, doc)
    | .ok t1 =>
      let t2 := match status with
        | some st => t1.change_status st
        | none => t1
      (.ok t2, dump_all (updateFirst (fun t => t.id = id) (fun _ => t2) tasks))

/-- The deletion scan of `FileTaskStore.delete_task`: Python pops matching
elements while enumerating the live list, so the element directly after a
removed one is skipped (kept without being tested). -/
def popScan (id : Int) : List Task → List Task
  | [] => []
  | [t] => if t.id = id then [] else [t]
  | t :: u :: ts =>
    if t.id = id then u :: popScan id ts else t :: popScan id (u :: ts)

/-- `FileTaskStore.delete_task`: scan-and-pop every matching task (without
raising when none matches) and rewrite the document. -/
def delete_task (doc : FDoc) (id : Int) : FDoc :=
  dump_all (popScan id (get_all doc))

end FileTaskStore

/-- One raw record of the remote bin's `tasks` array: keys `id`, `title`,
`status` and an optional `notes` key (the create path writes no notes key,
modelled as `none`). -/
structure RRec where
  id : Int
  title : PStr
  status : TaskStatus
  notes : Option PStr
deriving DecidableEq, Repr

/-- The remote bin's persisted `tasks` array (the rest of the payload is
fetched and pushed back untouched, so only the array matters here). -/
abbrev RDoc := List RRec

namespace RemoteTaskStore

/-- `RemoteTaskStore.get_all`: map each raw record through `Task.__init__`
(stripping the title, keeping notes), in document order. -/
def get_all (doc : RDoc) : List Task :=
  doc.map (fun r => Task.init r.id r.title r.status r.notes)

/-- `RemoteTaskStore.create_task`: fetch the payload, compute `1` when the
array is empty and `max(ids) + 1` otherwise, append a record with keys
`id`, `title`, `status` only, and push the payload back. -/
def create_task (doc : RDoc) (title : PStr) (status : TaskStatus) :
    Task × RDoc :=
  let new_id : Int :=
    match (doc.map RRec.id).max? with
    | none => 1
    | some m => m + 1
  let t := Task.init new_id title status none
  (t, doc ++ [⟨t.id, t.title, t.status, none⟩])

/-- `RemoteTaskStore.update_task`: find the first raw record with the given
id (raising when absent), rebuild a `Task` from it (stripping its stored
title), apply `rename_title` and `change_status` for the provided fields,
set notes only when provided, write `title`/`status` (and `notes` when
provided) back into that record, and push.  A validation failure propagates
before the push, leaving the bin unchanged. -/
def update_task (doc : RDoc) (id : Int) (title : Option PStr)
    (status : Option TaskStatus) (notes : Option PStr) :
    Except TErr Task × RDoc :=
  match doc.find? (fun r => r.id = id) with
  | none => (.error .notFound, doc)
  | some r0 =>
    let obj0 := Task.init r0.id r0.title r0.status r0.notes
    let r1 : Except TErr Task :=
      match title with
      | some ttl => obj0.rename_title ttl
      | none => .ok obj0
    match r1 with
    | .error e => (.error e, doc)
    | .ok obj1 =>
      let obj2 := match status with
        | some st => obj1.change_status st
        | none => obj1
      let obj3 := match notes with
        | some n => { obj2 with notes := some n }
        | none => obj2
      let newNotes := match notes with
        | some n => some n
        | none => r0.notes
      (.ok obj3,
        updateFirst (fun r => r.id = id)
          (fun _ => ⟨r0.id, obj3.title, obj3.status, newNotes⟩) doc)

/-- `RemoteTaskStore.delete_task`: pop the first raw record with the given
id and push; the loop's `else` branch raises when no record matched (and
nothing is pushed, leaving the bin unchanged). -/
def delete_task (doc : RDoc) (id : Int) : Except TErr Unit × RDoc :=
  match doc.find? (fun r => r.id = id) with
  | none => (.error .notFound, doc)
  | some _ => (.ok (), doc.eraseP (fun r => r.id = id))

end RemoteTaskStore

/-- JSON values, to the depth the AI client inspects (arrays are never
inspected by the source paths under verification and are omitted). -/
inductive JVal where
  | jnull
  | jbool (b : Bool)
  | jnum (n : Int)
  | jstr (s : PStr)
  | jobj (fields : List (PStr × JVal))

/-- Python `dict.get(k)` on a parsed JSON object: first binding of the key
(parsed JSON objects have unique keys). -/
def jlookup (fs : List (PStr × JVal)) (k : PStr) : Option JVal :=
  (fs.find? (fun p => p.1 = k)).map Prod.snd

/-- Python `repr` of a parsed JSON value (used by `str` on containers):
`None`, `True`/`False`, decimal integers, quoted strings and braced
key-value lists. -/
def pyRepr : JVal → PStr
  | .jnull => ("None").data
  | .jbool true => ("True").data
  | .jbool false => ("False").data
  | .jnum n => (toString n).data
  | .jstr s => Char.ofNat 39 :: (s ++ [Char.ofNat 39])
  | .jobj fs => Char.ofNat 123 :: (pyReprFields fs ++ [Char.ofNat 125])
where
  pyReprFields : List (PStr × JVal) → PStr
    | [] => []
    | [kv] =>
      (Char.ofNat 39 :: (kv.1 ++ [Char.ofNat 39])) ++ ((": ").data ++ pyRepr kv.2)
    | kv :: rest =>
      (Char.ofNat 39 :: (kv.1 ++ [Char.ofNat 39])) ++
        ((": ").data ++ (pyRepr kv.2 ++ ((", ").data ++ pyReprFields rest)))

/-- Python `str` of a parsed JSON value: a string is returned as itself,
anything else renders as its `repr`. -/
def pyStr : JVal → PStr
  | .jstr s => s
  | v => pyRepr v

/-- An HTTP response as seen after `requests` returns: the status code and
the parsed JSON body (`none` when the body is not valid JSON). -/
structure HResp where
  status : Nat
  body : Option JVal

/-- `BaseHTTPClient.json`: raise `RuntimeError` on an unexpected status,
then parse the body, raising `RuntimeError` when parsing fails. -/
def http_json (resp : HResp) (expected : List Nat) : Except TErr JVal :=
  if resp.status ∈ expected then
    match resp.body with
    | some v => .ok v
    | none => .error .transport
  else
    .error .transport

/-- `CloudflareAIClient.generate_plan`, applied to the response of the POST:
`data = self.json(resp)`, `result = data.get("result", \x7b\x7d)`; when
`result` is a dict containing `"response"` the stripped `str` of that value
is returned, otherwise the function falls through and returns Python
`None` (modelled as `.ok none`).  Calling `.get` on a non-dict body raises
`AttributeError`. -/
def CloudflareAIClient.generate_plan (resp : HResp) :
    Except TErr (Option PStr) :=
  match http_json resp [200] with
  | .error e => .error e
  | .ok data =>
    match data with
    | .jobj fs =>
      let result := (jlookup fs (("result").data)).getD (.jobj [])
      match result with
      | .jobj rfs =>
        match jlookup rfs (("response").data) with
        | some v => .ok (some (pstrip (pyStr v)))
        | none => .ok none
      | _ => .ok none
    | _ => .error .attrError

/-- `TaskService.create_task_and_enrich` against the remote store: create
the task (failures there propagate and are outside this model), then inside
`try`: obtain the AI plan (`planR` is the outcome of
`self.ai.generate_plan(...)`), and when the plan is truthy call the store's
update with the plan as notes and set `task.notes`; `updErr` injects a
transport failure of that follow-up HTTP call.  Every exception inside the
`try` is swallowed and the task is returned as created. -/
def TaskService.create_task_and_enrich (doc : RDoc) (title : PStr)
    (status : TaskStatus) (planR : Except TErr (Option PStr))
    (updErr : Option TErr) : Task × RDoc :=
  let created := RemoteTaskStore.create_task doc title status
  let task := created.1
  let doc1 := created.2
  match planR with
  | .error _ => (task, doc1)
  | .ok none => (task, doc1)
  | .ok (some p) =>
    if p = [] then (task, doc1)
    else
      match updErr with
      | some _ => (task, doc1)
      | none =>
        match RemoteTaskStore.update_task doc1 task.id none none (some p) with
        | (.error _, _) => (task, doc1)
        | (.ok _, doc2) => ({ task with notes := some p }, doc2)

/-! Helper lemmas about `pstrip`. -/

theorem dropWhile_dropWhile (p : Char → Bool) (l : List Char) :
    (l.dropWhile p).dropWhile p = l.dropWhile p := by
  induction l with
  | nil => rfl
  | cons a l ih =>
    by_cases h : p a
    · simp [List.dropWhile_cons, h, ih]
    · simp [List.dropWhile_cons, h]

theorem head_dropWhile_false (p : Char → Bool) (l : List Char) (c : Char)
    (h : (l.dropWhile p).head? = some c) : p c = false := by
  induction l with
  | nil => simp at h
  | cons a l ih =>
    by_cases hp : p a
    · rw [List.dropWhile_cons, if_pos hp] at h
      exact ih h
    · rw [List.dropWhile_cons, if_neg hp, List.head?_cons] at h
      cases h
      exact Bool.eq_false_iff.mpr hp

theorem dropWhile_eq_pstrip_append (s : PStr) :
    s.dropWhile isPyWS =
      pstrip s ++ ((s.dropWhile isPyWS).reverse.takeWhile isPyWS).reverse := by
  conv_lhs => rw [← List.reverse_reverse (s.dropWhile isPyWS),
    ← List.takeWhile_append_dropWhile isPyWS (s.dropWhile isPyWS).reverse]
  rw [List.reverse_append]
  rfl

theorem pstrip_dropWhile (s : PStr) :
    (pstrip s).dropWhile isPyWS = pstrip s := by
  cases hb : pstrip s with
  | nil => rfl
  | cons c bs =>
    have ha := dropWhile_eq_pstrip_append s
    rw [hb] at ha
    have hc : (s.dropWhile isPyWS).head? = some c := by rw [ha]; rfl
    have hf : isPyWS c = false := head_dropWhile_false _ s c hc
    rw [List.dropWhile_cons, hf]
    simp

theorem pstrip_idem (s : PStr) : pstrip (pstrip s) = pstrip s := by
  show (((pstrip s).dropWhile isPyWS).reverse.dropWhile isPyWS).reverse = pstrip s
  rw [pstrip_dropWhile]
  have h2 : (pstrip s).reverse = (s.dropWhile isPyWS).reverse.dropWhile isPyWS := by
    show ((s.dropWhile isPyWS).reverse.dropWhile isPyWS).reverse.reverse = _
    rw [List.reverse_reverse]
  rw [h2, dropWhile_dropWhile, ← h2, List.reverse_reverse]

/-! Helper lemmas about the entity operations and list scans. -/

theorem rename_title_ok {t t' : Task} {s : PStr}
    (h : t.rename_title s = .ok t') : t' = { t with title := pstrip s } := by
  unfold Task.rename_title at h
  by_cases hc : pstrip s = [] ∨ 50 < (pstrip s).length
  · rw [if_pos hc] at h
    cases h
  · rw [if_neg hc] at h
    cases h
    rfl

theorem rename_title_ok_bounds {t t' : Task} {s : PStr}
    (h : t.rename_title s = .ok t') :
    1 ≤ t'.title.length ∧ t'.title.length ≤ 50 ∧ pstrip t'.title = t'.title := by
  unfold Task.rename_title at h
  by_cases hc : pstrip s = [] ∨ 50 < (pstrip s).length
  · rw [if_pos hc] at h
    cases h
  · rw [if_neg hc] at h
    cases h
    push_neg at hc
    refine ⟨?_, hc.2, pstrip_idem s⟩
    have : pstrip s ≠ [] := hc.1
    exact Nat.succ_le_of_lt (List.length_pos.mpr this)

theorem updateFirst_nomatch {α : Type} (p : α → Bool) (f : α → α) :
    ∀ (l : List α), (∀ x ∈ l, p x = false) → updateFirst p f l = l := by
  intro l h
  induction l with
  | nil => rfl
  | cons x xs ih =>
    have hx := h x (by simp)
    simp only [updateFirst, hx, Bool.false_eq_true, if_false]
    rw [ih (fun y hy => h y (by simp [hy]))]

theorem updateFirst_fix {α : Type} (p : α → Bool) (f : α → α) :
    ∀ (l : List α) (a : α), l.find? p = some a → f a = a →
      updateFirst p f l = l := by
  intro l
  induction l with
  | nil => intro a h _; simp [List.find?] at h
  | cons x xs ih =>
    intro a h hfix
    by_cases hx : p x
    · rw [List.find?_cons] at h
      simp only [hx] at h
      cases h
      simp [updateFirst, hx, hfix]
    · rw [List.find?_cons] at h
      simp only [hx] at h
      simp only [updateFirst, hx, Bool.false_eq_true, if_false]
      rw [ih a h hfix]

theorem updateFirst_find_mem {α : Type} (p : α → Bool) (f : α → α) :
    ∀ (l : List α) (a : α), l.find? p = some a → f a ∈ updateFirst p f l := by
  intro l
  induction l with
  | nil => intro a h; simp [List.find?] at h
  | cons x xs ih =>
    intro a h
    by_cases hx : p x
    · rw [List.find?_cons] at h
      simp only [hx] at h
      cases h
      simp [updateFirst, hx]
    · rw [List.find?_cons] at h
      simp only [hx] at h
      simp only [updateFirst, hx, Bool.false_eq_true, if_false]
      exact List.mem_cons_of_mem x (ih a h)

theorem popScan_nomatch (idv : Int) :
    ∀ (l : List Task), (∀ t ∈ l, t.id ≠ idv) → FileTaskStore.popScan idv l = l
  | [], _ => rfl
  | [t], h => by
    have := h t (by simp)
    simp [FileTaskStore.popScan, this]
  | t :: u :: ts, h => by
    have ht := h t (by simp)
    have hu : ∀ x ∈ u :: ts, x.id ≠ idv := fun x hx => h x (by simp [hx])
    simp only [FileTaskStore.popScan, ht, if_false]
    rw [popScan_nomatch idv (u :: ts) hu]

/-! Helper lemmas about the file store. -/

instance : IsTotal Task (fun a b => a.id ≤ b.id) :=
  ⟨fun a b => Int.le_total a.id b.id⟩

instance : IsTrans Task (fun a b => a.id ≤ b.id) :=
  ⟨fun _ _ _ hab hbc => le_trans hab hbc⟩

theorem file_get_all_sorted (doc : FDoc) :
    List.Sorted (fun a b : Task => a.id ≤ b.id) (FileTaskStore.get_all doc) :=
  List.sorted_insertionSort _ _

theorem mem_file_get_all {doc : FDoc} {t : Task}
    (h : t ∈ FileTaskStore.get_all doc) :
    pstrip t.title = t.title ∧ t.notes = none := by
  unfold FileTaskStore.get_all at h
  rw [List.mem_insertionSort] at h
  rcases List.mem_map.mp h with ⟨r, _, rfl⟩
  exact ⟨pstrip_idem r.title, rfl⟩

theorem file_get_all_id_mem {doc : FDoc} {t : Task}
    (h : t ∈ FileTaskStore.get_all doc) :
    ∃ r ∈ doc.tasks, r.id = t.id := by
  unfold FileTaskStore.get_all at h
  rw [List.mem_insertionSort] at h
  rcases List.mem_map.mp h with ⟨r, hr, rfl⟩
  exact ⟨r, hr, rfl⟩

/-- A document is in the store's own output format: schema version 1,
stripped titles, tasks ascending by id. -/
def FDoc.canonical (doc : FDoc) : Prop :=
  doc.schema_version = 1 ∧
  (∀ r ∈ doc.tasks, pstrip r.title = r.title) ∧
  List.Pairwise (fun a b : SerTask => a.id ≤ b.id) doc.tasks

instance (doc : FDoc) : Decidable doc.canonical := by
  unfold FDoc.canonical
  infer_instance

theorem dump_get_canonical {doc : FDoc} (h : doc.canonical) :
    FileTaskStore.dump_all (FileTaskStore.get_all doc) = doc := by
  obtain ⟨hv, htrim, hsort⟩ := h
  have hmapf : doc.tasks.map (fun r => Task.init r.id r.title r.status none)
      = doc.tasks.map (fun r => (⟨r.id, r.title, r.status, none⟩ : Task)) :=
    List.map_congr_left (fun r hr => by
      unfold Task.init
      rw [htrim r hr])
  have hsorted : List.Sorted (fun a b : Task => a.id ≤ b.id)
      (doc.tasks.map (fun r => (⟨r.id, r.title, r.status, none⟩ : Task))) := by
    rw [List.Sorted, List.pairwise_map]
    exact hsort
  unfold FileTaskStore.get_all
  rw [hmapf, List.Sorted.insertionSort_eq hsorted]
  unfold FileTaskStore.dump_all
  rw [List.map_map]
  have hid : doc.tasks.map ((fun t : Task => (⟨t.id, t.title, t.status⟩ : SerTask)) ∘
      fun r : SerTask => (⟨r.id, r.title, r.status, none⟩ : Task)) = doc.tasks := by
    rw [List.map_congr_left (fun r _ => by cases r; rfl)]
    exact List.map_id doc.tasks
  rw [hid]
  cases doc
  simp only at hv
  rw [hv]

/-! Claim theorems. -/

/-- C8: round-trip on the file store.  `dump_all(get_all())` followed by
`get_all()` yields exactly the list produced by the first `get_all()` (same
ids, titles, statuses), and that list is in ascending-id order. -/
theorem C8_file_roundtrip (doc : FDoc) :
    FileTaskStore.get_all (FileTaskStore.dump_all (FileTaskStore.get_all doc))
        = FileTaskStore.get_all doc
    ∧ List.Sorted (fun a b : Task => a.id ≤ b.id) (FileTaskStore.get_all doc) := by
  refine ⟨?_, file_get_all_sorted doc⟩
  have hmap : (FileTaskStore.dump_all (FileTaskStore.get_all doc)).tasks.map
      (fun r => Task.init r.id r.title r.status none) = FileTaskStore.get_all doc := by
    unfold FileTaskStore.dump_all
    rw [List.map_map]
    have hfix : ∀ t ∈ FileTaskStore.get_all doc,
        ((fun r : SerTask => Task.init r.id r.title r.status none) ∘
          fun t : Task => (⟨t.id, t.title, t.status⟩ : SerTask)) t = id t := by
      intro t ht
      obtain ⟨h1, h2⟩ := mem_file_get_all ht
      show Task.init t.id t.title t.status none = t
      unfold Task.init
      cases t with
      | mk i ttl st nts =>
        simp only at h1 h2
        rw [h1, h2]
    rw [List.map_congr_left hfix, List.map_id]
  show List.insertionSort (fun a b : Task => a.id ≤ b.id)
      ((FileTaskStore.dump_all (FileTaskStore.get_all doc)).tasks.map
        (fun r => Task.init r.id r.title r.status none))
    = FileTaskStore.get_all doc
  rw [hmap]
  exact List.Sorted.insertionSort_eq (file_get_all_sorted doc)

/-- C5: `rename_title` raises `ValidationError` (leaving the task untouched,
as the exception fires before any assignment) exactly when the stripped new
title is empty or longer than 50 characters; otherwise it succeeds and
replaces the title with the stripped value. -/
theorem C5_rename_title (t : Task) (s : PStr) :
    (pstrip s = [] ∨ 50 < (pstrip s).length →
        t.rename_title s = .error .validation)
    ∧ (¬(pstrip s = [] ∨ 50 < (pstrip s).length) →
        t.rename_title s = .ok { t with title := pstrip s }) := by
  constructor
  · intro h
    unfold Task.rename_title
    rw [if_pos h]
  · intro h
    unfold Task.rename_title
    rw [if_neg h]

/-- Witness for C5: the empty title, a blank title and an over-long title
are rejected; a padded short title is accepted and stripped. -/
theorem C5_rename_title_witness :
    Task.rename_title ⟨1, ("a").data, .todo, none⟩ ("   ".data)
        = .error .validation
    ∧ Task.rename_title ⟨1, ("a").data, .todo, none⟩ (" b ".data)
        = .ok ⟨1, ("b").data, .todo, none⟩ := by
  constructor
  · exact (C5_rename_title ⟨1, ("a").data, .todo, none⟩ ("   ".data)).1
      (Or.inl (by decide))
  · rw [(C5_rename_title ⟨1, ("a").data, .todo, none⟩ (" b ".data)).2 (by decide)]
    rfl

/-- C2: when the store's create succeeds but the AI call (or the follow-up
notes update) raises, `create_task_and_enrich` swallows the failure: it
returns exactly the task built by `create_task` (whose notes are `None`),
and the created record is in the persisted bin afterwards. -/
theorem C2_enrich_swallows_failure (doc : RDoc) (title : PStr)
    (status : TaskStatus) (planR : Except TErr (Option PStr))
    (updErr : Option TErr) (e : TErr)
    (h : planR = .error e ∨ updErr = some e) :
    (TaskService.create_task_and_enrich doc title status planR updErr).1
        = (RemoteTaskStore.create_task doc title status).1
    ∧ (TaskService.create_task_and_enrich doc title status planR updErr).1.notes
        = none
    ∧ (⟨(RemoteTaskStore.create_task doc title status).1.id,
        (RemoteTaskStore.create_task doc title status).1.title,
        (RemoteTaskStore.create_task doc title status).1.status, none⟩ : RRec)
        ∈ (TaskService.create_task_and_enrich doc title status planR updErr).2 := by
  have hmem : (⟨(RemoteTaskStore.create_task doc title status).1.id,
      (RemoteTaskStore.create_task doc title status).1.title,
      (RemoteTaskStore.create_task doc title status).1.status, none⟩ : RRec)
      ∈ (RemoteTaskStore.create_task doc title status).2 :=
    List.mem_append_right _ (List.mem_singleton.mpr rfl)
  rcases h with h | h
  · subst h
    exact ⟨rfl, rfl, hmem⟩
  · cases planR with
    | error e' => exact ⟨rfl, rfl, hmem⟩
    | ok plan =>
      subst h
      cases plan with
      | none => exact ⟨rfl, rfl, hmem⟩
      | some p =>
        by_cases hp : p = []
        · refine ⟨?_, ?_, ?_⟩ <;>
            simp only [TaskService.create_task_and_enrich, hp, if_pos] <;>
            first
              | rfl
              | exact hmem
        · refine ⟨?_, ?_, ?_⟩ <;>
            simp only [TaskService.create_task_and_enrich, hp, if_neg,
              not_false_iff] <;>
            first
              | rfl
              | exact hmem

/-- Witness for C2: an AI client raising a transport error leaves the task
without notes and keeps it in the (initially empty) bin. -/
theorem C2_enrich_swallows_failure_witness :
    (TaskService.create_task_and_enrich [] (("Learn Go").data) .todo
        (.error .transport) none).1
      = (RemoteTaskStore.create_task [] (("Learn Go").data) .todo).1
    ∧ (TaskService.create_task_and_enrich [] (("Learn Go").data) .todo
        (.error .transport) none).1.notes = none
    ∧ (⟨(RemoteTaskStore.create_task [] (("Learn Go").data) .todo).1.id,
        (RemoteTaskStore.create_task [] (("Learn Go").data) .todo).1.title,
        (RemoteTaskStore.create_task [] (("Learn Go").data) .todo).1.status,
        none⟩ : RRec)
        ∈ (TaskService.create_task_and_enrich [] (("Learn Go").data) .todo
            (.error .transport) none).2 :=
  C2_enrich_swallows_failure [] (("Learn Go").data) .todo (.error .transport)
    none .transport (Or.inl rfl)

/-- C10: a 200 response whose JSON object has no `result` key, or whose
`result` object has no `response` key, makes `generate_plan` fall through
and return Python `None` without raising; the enrichment then leaves the
new task's notes as `None` and performs no follow-up store update (the bin
stays exactly as `create_task` left it). -/
theorem C10_missing_result_or_response (fs : List (PStr × JVal)) (doc : RDoc)
    (title : PStr) (status : TaskStatus) (updErr : Option TErr)
    (h : jlookup fs (("result").data) = none
      ∨ ∃ rfs, jlookup fs (("result").data) = some (.jobj rfs)
          ∧ jlookup rfs (("response").data) = none) :
    CloudflareAIClient.generate_plan ⟨200, some (.jobj fs)⟩ = .ok none
    ∧ (TaskService.create_task_and_enrich doc title status
        (CloudflareAIClient.generate_plan ⟨200, some (.jobj fs)⟩) updErr).1.notes
      = none
    ∧ (TaskService.create_task_and_enrich doc title status
        (CloudflareAIClient.generate_plan ⟨200, some (.jobj fs)⟩) updErr).2
      = (RemoteTaskStore.create_task doc title status).2 := by
  have hplan : CloudflareAIClient.generate_plan ⟨200, some (.jobj fs)⟩
      = .ok none := by
    unfold CloudflareAIClient.generate_plan
    have h200 : http_json ⟨200, some (.jobj fs)⟩ [200] = .ok (.jobj fs) := rfl
    rw [h200]
    rcases h with h | ⟨rfs, h1, h2⟩
    · simp only [h, Option.getD_none]
      rfl
    · simp only [h1, Option.getD_some, h2]
  refine ⟨hplan, ?_, ?_⟩ <;> rw [hplan] <;> rfl

/-- Witness for C10: the empty JSON object has no `result` key. -/
theorem C10_missing_result_or_response_witness :
    CloudflareAIClient.generate_plan ⟨200, some (.jobj [])⟩ = .ok none
    ∧ (TaskService.create_task_and_enrich [] (("t").data) .todo
        (CloudflareAIClient.generate_plan ⟨200, some (.jobj [])⟩) none).1.notes
      = none
    ∧ (TaskService.create_task_and_enrich [] (("t").data) .todo
        (CloudflareAIClient.generate_plan ⟨200, some (.jobj [])⟩) none).2
      = (RemoteTaskStore.create_task [] (("t").data) .todo).2 :=
  C10_missing_result_or_response [] [] (("t").data) .todo none (Or.inl rfl)

/-- The successful enrichment path: when the plan is a non-empty string and
the follow-up HTTP call succeeds, the service updates the first bin record
carrying the new task's id with the plan as notes and reflects the plan on
the returned task. -/
theorem enrich_update_path (doc : RDoc) (title : PStr) (status : TaskStatus)
    (p : PStr) (hp : p ≠ []) :
    ∃ r0 : RRec,
      (RemoteTaskStore.create_task doc title status).2.find?
          (fun x => x.id = (RemoteTaskStore.create_task doc title status).1.id)
        = some r0
      ∧ TaskService.create_task_and_enrich doc title status (.ok (some p)) none
        = ({ (RemoteTaskStore.create_task doc title status).1 with
              notes := some p },
           updateFirst
             (fun x => x.id = (RemoteTaskStore.create_task doc title status).1.id)
             (fun _ => ⟨r0.id, pstrip r0.title, r0.status, some p⟩)
             (RemoteTaskStore.create_task doc title status).2) := by
  have hlast : (⟨(RemoteTaskStore.create_task doc title status).1.id,
      (RemoteTaskStore.create_task doc title status).1.title,
      (RemoteTaskStore.create_task doc title status).1.status, none⟩ : RRec)
      ∈ (RemoteTaskStore.create_task doc title status).2 :=
    List.mem_append_right _ (List.mem_singleton.mpr rfl)
  have hsome : ((RemoteTaskStore.create_task doc title status).2.find?
      (fun x => x.id = (RemoteTaskStore.create_task doc title status).1.id)).isSome := by
    rw [List.find?_isSome]
    exact ⟨_, hlast, by simp⟩
  obtain ⟨r0, hfind⟩ := Option.isSome_iff_exists.mp hsome
  have hupd : RemoteTaskStore.update_task
      (RemoteTaskStore.create_task doc title status).2
      (RemoteTaskStore.create_task doc title status).1.id none none (some p)
      = (.ok ⟨r0.id, pstrip r0.title, r0.status, some p⟩,
         updateFirst
           (fun x => x.id = (RemoteTaskStore.create_task doc title status).1.id)
           (fun _ => ⟨r0.id, pstrip r0.title, r0.status, some p⟩)
           (RemoteTaskStore.create_task doc title status).2) := by
    unfold RemoteTaskStore.update_task
    rw [hfind]
    rfl
  refine ⟨r0, hfind, ?_⟩
  simp only [TaskService.create_task_and_enrich]
  rw [if_neg hp, hupd]

/-- C7: with the AI endpoint answering 200 and a body carrying
`result.response = "Step 1..."`, the enrichment returns a task whose notes
are exactly `"Step 1..."`, and a subsequent `list_all` on the store yields a
task with that id carrying the same notes. -/
theorem C7_enrich_success (doc : RDoc) (title : PStr) (status : TaskStatus) :
    (TaskService.create_task_and_enrich doc title status
        (CloudflareAIClient.generate_plan ⟨200, some (.jobj
          [((("result").data), .jobj
            [((("response").data), .jstr (("Step 1...").data))])])⟩) none).1.notes
      = some (("Step 1...").data)
    ∧ ∃ t ∈ RemoteTaskStore.get_all
        (TaskService.create_task_and_enrich doc title status
          (CloudflareAIClient.generate_plan ⟨200, some (.jobj
            [((("result").data), .jobj
              [((("response").data), .jstr (("Step 1...").data))])])⟩) none).2,
        t.id = (TaskService.create_task_and_enrich doc title status
          (CloudflareAIClient.generate_plan ⟨200, some (.jobj
            [((("result").data), .jobj
              [((("response").data), .jstr (("Step 1...").data))])])⟩) none).1.id
        ∧ t.notes = some (("Step 1...").data) := by
  have hplan : CloudflareAIClient.generate_plan ⟨200, some (.jobj
      [((("result").data), .jobj
        [((("response").data), .jstr (("Step 1...").data))])])⟩
      = .ok (some (("Step 1...").data)) := by rfl
  rw [hplan]
  obtain ⟨r0, hfind, heq⟩ :=
    enrich_update_path doc title status (("Step 1...").data) (by decide)
  rw [heq]
  refine ⟨rfl, ?_⟩
  have hmem : (⟨r0.id, pstrip r0.title, r0.status,
      some (("Step 1...").data)⟩ : RRec)
      ∈ updateFirst
          (fun x => x.id = (RemoteTaskStore.create_task doc title status).1.id)
          (fun _ => ⟨r0.id, pstrip r0.title, r0.status,
            some (("Step 1...").data)⟩)
          (RemoteTaskStore.create_task doc title status).2 :=
    updateFirst_find_mem _ _ _ r0 hfind
  refine ⟨Task.init r0.id (pstrip r0.title) r0.status
      (some (("Step 1...").data)), ?_, ?_, rfl⟩
  · exact List.mem_map.mpr ⟨_, hmem, rfl⟩
  · have := List.find?_some hfind
    have hid : r0.id = (RemoteTaskStore.create_task doc title status).1.id :=
      of_decide_eq_true this
    exact hid

/-- C1 counterexample: in the document with ids 1 and 3 the maximum id is 3,
yet deleting it and creating again assigns id 2, not the freed id 3 — the
file (and remote) stores recompute `max(remaining) + 1`, which equals the
freed id only when the remaining maximum is exactly one less. -/
theorem C1_counterexample_id_reuse :
    ((FileTaskStore.get_all
        ⟨1, [⟨1, ("a").data, .todo⟩, ⟨3, ("b").data, .done⟩]⟩).map Task.id).max?
      = some 3
    ∧ (FileTaskStore.create_task
        (FileTaskStore.delete_task
          ⟨1, [⟨1, ("a").data, .todo⟩, ⟨3, ("b").data, .done⟩]⟩ 3)
        (("c").data) .todo).1.id = 2
    ∧ (2 : Int) ≠ 3 := by
  refine ⟨rfl, rfl, by decide⟩

/-- C1 amended: for the file and remote stores the next create after
deleting the task with the maximum id assigns `max(remaining ids) + 1`
(recomputed from the current document), so the freed id is reassigned
exactly when the remaining maximum is one less than it; the in-memory store
instead assigns its persistent counter, strictly larger than every stored
id (so the freed id is never reused). -/
theorem C1_amended_id_policy (fdoc : FDoc) (rdoc : RDoc) (ms : MemStore)
    (mF mR mM : Int) (title : PStr) (status : TaskStatus)
    (hF : ((FileTaskStore.get_all (FileTaskStore.delete_task fdoc mF)).map
        Task.id).max? = some (mF - 1))
    (hR : (((RemoteTaskStore.delete_task rdoc mR).2).map RRec.id).max?
        = some (mR - 1))
    (hM : ∀ t ∈ ms.tasks, t.id < ms.next_id)
    (hMmem : ∃ t ∈ ms.tasks, t.id = mM) :
    (FileTaskStore.create_task (FileTaskStore.delete_task fdoc mF)
        title status).1.id = mF
    ∧ (RemoteTaskStore.create_task ((RemoteTaskStore.delete_task rdoc mR).2)
        title status).1.id = mR
    ∧ mM < (((MemStore.delete_task ms mM).2).create_task title status).1.id := by
  refine ⟨?_, ?_, ?_⟩
  · show (match ((FileTaskStore.get_all (FileTaskStore.delete_task fdoc mF)).map
        Task.id).max? with
      | none => (1 : Int)
      | some m => m + 1) = mF
    rw [hF]
    show mF - 1 + 1 = mF
    omega
  · show (match (((RemoteTaskStore.delete_task rdoc mR).2).map RRec.id).max? with
      | none => (1 : Int)
      | some m => m + 1) = mR
    rw [hR]
    show mR - 1 + 1 = mR
    omega
  · have h2 : ((MemStore.delete_task ms mM).2).next_id = ms.next_id := by
      unfold MemStore.delete_task
      by_cases hany : ms.tasks.any (fun t => t.id = mM) <;> simp [hany]
    show mM < ((MemStore.delete_task ms mM).2).next_id
    rw [h2]
    obtain ⟨t, htm, hid⟩ := hMmem
    rw [← hid]
    exact hM t htm

/-- Witness for the amended C1: documents with contiguous ids 1, 2 —
deleting id 2 frees it for reuse on the file and remote stores; the
in-memory store with counter 3 assigns an id strictly larger than 2. -/
theorem C1_amended_id_policy_witness :
    (FileTaskStore.create_task
        (FileTaskStore.delete_task
          ⟨1, [⟨1, ("a").data, .todo⟩, ⟨2, ("b").data, .done⟩]⟩ 2)
        (("c").data) .todo).1.id = 2
    ∧ (RemoteTaskStore.create_task
        ((RemoteTaskStore.delete_task
          [⟨1, ("a").data, .todo, none⟩, ⟨2, ("b").data, .done, none⟩] 2).2)
        (("c").data) .todo).1.id = 2
    ∧ (2 : Int) < (((MemStore.delete_task
        ⟨[⟨1, ("a").data, .todo, none⟩, ⟨2, ("b").data, .done, none⟩], 3⟩ 2).2).create_task
        (("c").data) .todo).1.id :=
  C1_amended_id_policy
    ⟨1, [⟨1, ("a").data, .todo⟩, ⟨2, ("b").data, .done⟩]⟩
    [⟨1, ("a").data, .todo, none⟩, ⟨2, ("b").data, .done, none⟩]
    ⟨[⟨1, ("a").data, .todo, none⟩, ⟨2, ("b").data, .done, none⟩], 3⟩
    2 2 2 (("c").data) .todo
    (by decide) (by decide) (by decide) (by decide)

/-- C3: deleting an absent id raises `NotFoundError` and leaves the state
unchanged on the in-memory and remote stores, while the file store silently
rewrites the (canonical) document unchanged, raising nothing. -/
theorem C3_delete_missing_id (ms : MemStore) (rdoc : RDoc) (fdoc : FDoc)
    (idm idr idf : Int)
    (hm : ∀ t ∈ ms.tasks, t.id ≠ idm)
    (hr : ∀ r ∈ rdoc, r.id ≠ idr)
    (hf : ∀ r ∈ fdoc.tasks, r.id ≠ idf)
    (hcanon : fdoc.canonical) :
    MemStore.delete_task ms idm = (.error .notFound, ms)
    ∧ RemoteTaskStore.delete_task rdoc idr = (.error .notFound, rdoc)
    ∧ FileTaskStore.delete_task fdoc idf = fdoc := by
  refine ⟨?_, ?_, ?_⟩
  · have hany : ms.tasks.any (fun t => t.id = idm) = false := by
      rw [List.any_eq_false]
      intro t ht
      simpa using hm t ht
    unfold MemStore.delete_task
    simp [hany]
  · have hfind : rdoc.find? (fun r => r.id = idr) = none := by
      rw [List.find?_eq_none]
      intro r hrr
      simpa using hr r hrr
    unfold RemoteTaskStore.delete_task
    rw [hfind]
  · have hget : ∀ t ∈ FileTaskStore.get_all fdoc, t.id ≠ idf := by
      intro t ht
      obtain ⟨r, hrmem, hrid⟩ := file_get_all_id_mem ht
      rw [← hrid]
      exact hf r hrmem
    unfold FileTaskStore.delete_task
    rw [popScan_nomatch idf _ hget]
    exact dump_get_canonical hcanon

/-- Witness for C3: id 5 is absent from each one-task store. -/
theorem C3_delete_missing_id_witness :
    MemStore.delete_task ⟨[⟨1, ("a").data, .todo, none⟩], 2⟩ 5
        = (.error .notFound, ⟨[⟨1, ("a").data, .todo, none⟩], 2⟩)
    ∧ RemoteTaskStore.delete_task [⟨1, ("a").data, .todo, none⟩] 5
        = (.error .notFound, [⟨1, ("a").data, .todo, none⟩])
    ∧ FileTaskStore.delete_task ⟨1, [⟨1, ("a").data, .todo⟩]⟩ 5
        = ⟨1, [⟨1, ("a").data, .todo⟩]⟩ :=
  C3_delete_missing_id ⟨[⟨1, ("a").data, .todo, none⟩], 2⟩
    [⟨1, ("a").data, .todo, none⟩] ⟨1, [⟨1, ("a").data, .todo⟩]⟩ 5 5 5
    (by decide) (by decide) (by decide) (by decide)

/-- C4 counterexample: the constructor validates nothing, so creating a task
from the empty title yields a domain `Task` whose title has length 0 —
the claimed 1..50 title bound does not hold after construction. -/
theorem C4_counterexample_create_unvalidated :
    (MemStore.create_task ⟨[], 1⟩ [] .todo).1.title.length = 0
    ∧ ¬(1 ≤ (MemStore.create_task ⟨[], 1⟩ [] .todo).1.title.length) :=
  ⟨rfl, by decide⟩

/-- C4 amended: every task produced by a create is trimmed (and its status
is one of the three enum values by typing), the validated setters preserve
the full invariant — `rename_title` always yields a trimmed title of length
1..50 and `change_status` only replaces the status — but construction
enforces the length bound only when the trimmed input already satisfies
it. -/
theorem C4_amended_invariants (ms : MemStore) (fdoc : FDoc) (rdoc : RDoc)
    (title s : PStr) (status st : TaskStatus) (t t' : Task)
    (hren : t.rename_title s = .ok t') :
    pstrip (MemStore.create_task ms title status).1.title
        = (MemStore.create_task ms title status).1.title
    ∧ pstrip (FileTaskStore.create_task fdoc title status).1.title
        = (FileTaskStore.create_task fdoc title status).1.title
    ∧ pstrip (RemoteTaskStore.create_task rdoc title status).1.title
        = (RemoteTaskStore.create_task rdoc title status).1.title
    ∧ (1 ≤ t'.title.length ∧ t'.title.length ≤ 50 ∧ pstrip t'.title = t'.title)
    ∧ ((t.change_status st).title = t.title ∧ (t.change_status st).notes = t.notes
        ∧ (t.change_status st).status = st)
    ∧ (1 ≤ (pstrip title).length → (pstrip title).length ≤ 50 →
        1 ≤ (MemStore.create_task ms title status).1.title.length
        ∧ (MemStore.create_task ms title status).1.title.length ≤ 50) :=
  ⟨pstrip_idem title, pstrip_idem title, pstrip_idem title,
   rename_title_ok_bounds hren, ⟨rfl, rfl, rfl⟩, fun h1 h2 => ⟨h1, h2⟩⟩

/-- Witness for the amended C4: a concrete create with a padded title and a
concrete successful rename. -/
theorem C4_amended_invariants_witness :
    pstrip (MemStore.create_task ⟨[], 1⟩ ((" a ").data) .todo).1.title
        = (MemStore.create_task ⟨[], 1⟩ ((" a ").data) .todo).1.title
    ∧ pstrip (FileTaskStore.create_task ⟨1, []⟩ ((" a ").data) .todo).1.title
        = (FileTaskStore.create_task ⟨1, []⟩ ((" a ").data) .todo).1.title
    ∧ pstrip (RemoteTaskStore.create_task [] ((" a ").data) .todo).1.title
        = (RemoteTaskStore.create_task [] ((" a ").data) .todo).1.title
    ∧ (1 ≤ (Task.mk 1 (("ok").data) .todo none).title.length
        ∧ (Task.mk 1 (("ok").data) .todo none).title.length ≤ 50
        ∧ pstrip (Task.mk 1 (("ok").data) .todo none).title
            = (Task.mk 1 (("ok").data) .todo none).title)
    ∧ (((Task.mk 1 (("a").data) .todo none).change_status .done).title
          = (Task.mk 1 (("a").data) .todo none).title
        ∧ ((Task.mk 1 (("a").data) .todo none).change_status .done).notes
          = (Task.mk 1 (("a").data) .todo none).notes
        ∧ ((Task.mk 1 (("a").data) .todo none).change_status .done).status = .done)
    ∧ (1 ≤ (pstrip ((" a ").data)).length → (pstrip ((" a ").data)).length ≤ 50 →
        1 ≤ (MemStore.create_task ⟨[], 1⟩ ((" a ").data) .todo).1.title.length
        ∧ (MemStore.create_task ⟨[], 1⟩ ((" a ").data) .todo).1.title.length ≤ 50) :=
  C4_amended_invariants ⟨[], 1⟩ ⟨1, []⟩ [] ((" a ").data) (("ok").data)
    .todo .done (Task.mk 1 (("a").data) .todo none)
    (Task.mk 1 (("ok").data) .todo none) (by decide)

/-- The in-memory update's title step (truthiness test plus rename) never
touches the status, notes or id of the task on success. -/
theorem step1_frame {t0 t1 : Task} {ttl : PStr}
    (hq : (if ttl = [] then Except.ok t0 else t0.rename_title ttl)
      = .ok t1) :
    t1.status = t0.status ∧ t1.notes = t0.notes ∧ t1.id = t0.id := by
  by_cases hempty : ttl = []
  · rw [if_pos hempty] at hq
    cases hq
    exact ⟨rfl, rfl, rfl⟩
  · rw [if_neg hempty] at hq
    have ht := rename_title_ok hq
    subst ht
    exact ⟨rfl, rfl, rfl⟩

/-- C6: partial updates only touch the provided fields.  A status-only
update returns the stored task with just the status replaced (title and
notes untouched, and for the remote store the persisted record keeps its
title and notes when the stored title is trimmed, as the store's own writes
guarantee); a title-only update that succeeds leaves status and notes
untouched on every backend. -/
theorem C6_partial_update_frame (ms : MemStore) (fdoc : FDoc) (rdoc : RDoc)
    (id : Int) (st : TaskStatus) (ttl : PStr)
    (t0 tf : Task) (r0 : RRec) (tm' tf' tr' : Task)
    (hm : ms.tasks.find? (fun t => t.id = id) = some t0)
    (hf : (FileTaskStore.get_all fdoc).find? (fun t => t.id = id) = some tf)
    (hr : rdoc.find? (fun r => r.id = id) = some r0)
    (hm' : (MemStore.update_task ms id (some ttl) none).1 = .ok tm')
    (hf' : (FileTaskStore.update_task fdoc id (some ttl) none).1 = .ok tf')
    (hr' : (RemoteTaskStore.update_task rdoc id (some ttl) none none).1
      = .ok tr') :
    (MemStore.update_task ms id none (some st)).1 = .ok (t0.change_status st)
    ∧ (FileTaskStore.update_task fdoc id none (some st)).1
        = .ok (tf.change_status st)
    ∧ (RemoteTaskStore.update_task rdoc id none (some st) none).1
        = .ok ((Task.init r0.id r0.title r0.status r0.notes).change_status st)
    ∧ (pstrip r0.title = r0.title →
        (RemoteTaskStore.update_task rdoc id none (some st) none).2
          = updateFirst (fun r => r.id = id)
              (fun _ => ⟨r0.id, r0.title, st, r0.notes⟩) rdoc)
    ∧ (tm'.status = t0.status ∧ tm'.notes = t0.notes)
    ∧ (tf'.status = tf.status ∧ tf'.notes = tf.notes)
    ∧ (tr'.status = r0.status ∧ tr'.notes = r0.notes) := by
  have hqr : RemoteTaskStore.update_task rdoc id none (some st) none
      = (.ok ((Task.init r0.id r0.title r0.status r0.notes).change_status st),
         updateFirst (fun r => r.id = id)
           (fun _ => ⟨r0.id, pstrip r0.title, st, r0.notes⟩) rdoc) := by
    unfold RemoteTaskStore.update_task
    rw [hr]
    rfl
  have hcm : MemStore.update_task ms id (some ttl) none
      = (match (if ttl = [] then Except.ok t0 else t0.rename_title ttl :
            Except TErr Task) with
         | .error e => (.error e, ms)
         | .ok t1 =>
           (.ok t1,
            { tasks := updateFirst (fun t => t.id = id) (fun _ => t1) ms.tasks,
              next_id := ms.next_id })) := by
    unfold MemStore.update_task
    rw [hm]
  have hcf : FileTaskStore.update_task fdoc id (some ttl) none
      = (match (tf.rename_title ttl : Except TErr Task) with
         | .error e => (.error e, fdoc)
         | .ok t1 =>
           (.ok t1,
            FileTaskStore.dump_all (updateFirst (fun t => t.id = id)
              (fun _ => t1) (FileTaskStore.get_all fdoc)))) := by
    simp only [FileTaskStore.update_task]
    rw [hf]
  have hcr : RemoteTaskStore.update_task rdoc id (some ttl) none none
      = (match ((Task.init r0.id r0.title r0.status r0.notes).rename_title ttl :
            Except TErr Task) with
         | .error e => (.error e, rdoc)
         | .ok obj1 =>
           (.ok obj1,
            updateFirst (fun r => r.id = id)
              (fun _ => ⟨r0.id, obj1.title, obj1.status, r0.notes⟩) rdoc)) := by
    unfold RemoteTaskStore.update_task
    rw [hr]
  refine ⟨?_, ?_, ?_, ?_, ?_, ?_, ?_⟩
  · unfold MemStore.update_task
    rw [hm]
  · simp only [FileTaskStore.update_task]
    rw [hf]
  · rw [hqr]
  · intro htrim
    rw [hqr]
    show updateFirst (fun r => r.id = id)
      (fun _ => ⟨r0.id, pstrip r0.title, st, r0.notes⟩) rdoc = _
    rw [htrim]
  · rw [hcm] at hm'
    cases hq : (if ttl = [] then Except.ok t0 else t0.rename_title ttl) with
    | error e =>
      rw [hq] at hm'
      simp at hm'
    | ok t1 =>
      rw [hq] at hm'
      simp at hm'
      obtain ⟨h1, h2, _⟩ := step1_frame hq
      rw [← hm']
      exact ⟨h1, h2⟩
  · rw [hcf] at hf'
    cases hq : tf.rename_title ttl with
    | error e =>
      rw [hq] at hf'
      simp at hf'
    | ok t1 =>
      rw [hq] at hf'
      simp at hf'
      have ht := rename_title_ok hq
      subst ht
      rw [← hf']
      exact ⟨rfl, rfl⟩
  · rw [hcr] at hr'
    cases hq : (Task.init r0.id r0.title r0.status r0.notes).rename_title ttl with
    | error e =>
      rw [hq] at hr'
      simp at hr'
    | ok t1 =>
      rw [hq] at hr'
      simp at hr'
      have ht := rename_title_ok hq
      subst ht
      rw [← hr']
      exact ⟨rfl, rfl⟩

/-- Witness for C6: one-task stores, a status-only update to `done` and a
title-only update to `"b"`. -/
theorem C6_partial_update_frame_witness :
    (MemStore.update_task ⟨[⟨1, ("a").data, .todo, none⟩], 2⟩ 1 none
        (some .done)).1
      = .ok ((Task.mk 1 (("a").data) .todo none).change_status .done)
    ∧ (FileTaskStore.update_task ⟨1, [⟨1, ("a").data, .todo⟩]⟩ 1 none
        (some .done)).1
      = .ok ((Task.mk 1 (("a").data) .todo none).change_status .done)
    ∧ (RemoteTaskStore.update_task [⟨1, ("a").data, .todo, none⟩] 1 none
        (some .done) none).1
      = .ok ((Task.init 1 (("a").data) .todo none).change_status .done)
    ∧ (pstrip (("a").data) = ("a").data →
        (RemoteTaskStore.update_task [⟨1, ("a").data, .todo, none⟩] 1 none
          (some .done) none).2
          = updateFirst (fun r => r.id = 1)
              (fun _ => ⟨1, ("a").data, .done, none⟩)
              [⟨1, ("a").data, .todo, none⟩])
    ∧ ((Task.mk 1 (("b").data) .todo none).status
          = (Task.mk 1 (("a").data) .todo none).status
        ∧ (Task.mk 1 (("b").data) .todo none).notes
          = (Task.mk 1 (("a").data) .todo none).notes)
    ∧ ((Task.mk 1 (("b").data) .todo none).status
          = (Task.mk 1 (("a").data) .todo none).status
        ∧ (Task.mk 1 (("b").data) .todo none).notes
          = (Task.mk 1 (("a").data) .todo none).notes)
    ∧ ((Task.mk 1 (("b").data) .todo none).status = .todo
        ∧ (Task.mk 1 (("b").data) .todo none).notes = none) :=
  C6_partial_update_frame ⟨[⟨1, ("a").data, .todo, none⟩], 2⟩
    ⟨1, [⟨1, ("a").data, .todo⟩]⟩ [⟨1, ("a").data, .todo, none⟩]
    1 .done (("b").data)
    (Task.mk 1 (("a").data) .todo none) (Task.mk 1 (("a").data) .todo none)
    (RRec.mk 1 (("a").data) .todo none)
    (Task.mk 1 (("b").data) .todo none) (Task.mk 1 (("b").data) .todo none)
    (Task.mk 1 (("b").data) .todo none)
    (by decide) (by decide) (by decide) (by decide) (by decide) (by decide)

/-- C9: updating an existing id with the empty string as title is accepted
by the in-memory store as a no-op (Python truthiness skips the rename: no
exception, title unchanged, state unchanged), while the file and remote
stores test `is not None`, call `rename_title("")` and raise
`ValidationError`, leaving their persisted documents unchanged. -/
theorem C9_empty_title_update (ms : MemStore) (fdoc : FDoc) (rdoc : RDoc)
    (id : Int) (t0 : Task) (tf : Task) (r0 : RRec)
    (hm : ms.tasks.find? (fun t => t.id = id) = some t0)
    (hf : (FileTaskStore.get_all fdoc).find? (fun t => t.id = id) = some tf)
    (hr : rdoc.find? (fun r => r.id = id) = some r0) :
    MemStore.update_task ms id (some []) none = (.ok t0, ms)
    ∧ FileTaskStore.update_task fdoc id (some []) none
        = (.error .validation, fdoc)
    ∧ RemoteTaskStore.update_task rdoc id (some []) none none
        = (.error .validation, rdoc) := by
  refine ⟨?_, ?_, ?_⟩
  · have hfix : updateFirst (fun t => t.id = id) (fun _ => t0) ms.tasks
        = ms.tasks :=
      updateFirst_fix _ _ ms.tasks t0 hm rfl
    have hq : MemStore.update_task ms id (some []) none
        = (.ok t0,
           { tasks := updateFirst (fun t => t.id = id) (fun _ => t0) ms.tasks,
             next_id := ms.next_id }) := by
      unfold MemStore.update_task
      rw [hm]
      rfl
    rw [hq, hfix]
  · simp only [FileTaskStore.update_task]
    rw [hf]
    rfl
  · simp only [RemoteTaskStore.update_task]
    rw [hr]
    rfl

/-- Witness for C9: one-task stores and their task with id 1. -/
theorem C9_empty_title_update_witness :
    MemStore.update_task ⟨[⟨1, ("a").data, .todo, none⟩], 2⟩ 1 (some []) none
        = (.ok (Task.mk 1 (("a").data) .todo none),
           ⟨[⟨1, ("a").data, .todo, none⟩], 2⟩)
    ∧ FileTaskStore.update_task ⟨1, [⟨1, ("a").data, .todo⟩]⟩ 1 (some []) none
        = (.error .validation, ⟨1, [⟨1, ("a").data, .todo⟩]⟩)
    ∧ RemoteTaskStore.update_task [⟨1, ("a").data, .todo, none⟩] 1 (some [])
        none none
        = (.error .validation, [⟨1, ("a").data, .todo, none⟩]) :=
  C9_empty_title_update ⟨[⟨1, ("a").data, .todo, none⟩], 2⟩
    ⟨1, [⟨1, ("a").data, .todo⟩]⟩ [⟨1, ("a").data, .todo, none⟩] 1
    (Task.mk 1 (("a").data) .todo none) (Task.mk 1 (("a").data) .todo none)
    (RRec.mk 1 (("a").data) .todo none)
    (by decide) (by decide) (by decide)

end TaskTracker
